import Mathlib

/-!
Verification of the honey reverse-proxy cache core (davidjwilkins/honey)
against its natural-language specification.

The Go sources are shallowly embedded:
* strings are Lean `String`s; byte slices are `List Nat`;
* `http.Header` is an association list `List (String × List String)` whose
  keys are assumed already in Go's canonical MIME form (every header key
  written by the repository's code is canonical, and Go's `Get`/`Set`/`Add`
  canonicalise their argument, so exact string matching on canonical keys is
  faithful);
* wall-clock times are whole seconds held in `Int`; `time.Time` values are
  epoch seconds (the code only ever compares times and takes differences in
  whole seconds, via `time.Since(..)/time.Second`);
* the BLAKE2b-256 digest comes from the external library
  `github.com/minio/blake2b-simd`, outside this repository; it is passed to
  the embedding as an explicit function parameter `digest`;
* goroutine dispatch loops that touch each waiter's own sink exactly once
  are modelled as a `List.map` over the waiters (each sink is written by
  exactly one dispatch, so interleaving is irrelevant to the per-sink
  result).
-/

namespace Honey

/-! ### Go string primitives (package `strings`, `strconv`) -/

/-- Go `strings.Contains` on character lists: `sub` occurs somewhere in `s`
(the empty string is contained in everything). -/
def containsL (s sub : List Char) : Bool :=
  match s with
  | [] => sub.isEmpty
  | _ :: t => sub.isPrefixOf s || containsL t sub

/-- Go `strings.Contains` on `String`. -/
def containsStr (s sub : String) : Bool :=
  containsL s.toList sub.toList

/-- Go `strings.TrimSpace` (ASCII whitespace; the repository only feeds it
header values, which are ASCII). -/
def trimSpace (s : String) : String :=
  String.mk (((s.toList.dropWhile Char.isWhitespace).reverse.dropWhile
    Char.isWhitespace).reverse)

/-- Go `strings.Split(s, sep)` for non-empty `sep`: non-overlapping,
left-to-right.  The fuel argument (always the input length) makes the
recursion structural: every step consumes at least one character. -/
def goSplitF (fuel : Nat) (s sep : List Char) : List (List Char) :=
  match fuel, s with
  | 0, _ => [s]
  | _ + 1, [] => [[]]
  | f + 1, c :: t =>
    if sep.isPrefixOf (c :: t) && !sep.isEmpty then
      [] :: goSplitF f ((c :: t).drop sep.length) sep
    else
      match goSplitF f t sep with
      | [] => [[c]]
      | h :: rest => (c :: h) :: rest

/-- Go `strings.Split` on `String`s. -/
def goSplitOn (s sep : String) : List String :=
  (goSplitF s.toList.length s.toList sep.toList).map String.mk

/-- Go `strings.Replace(s, pat, rep, -1)` for non-empty `pat`:
non-overlapping, left-to-right (fuel-structured as above). -/
def replaceAllF (fuel : Nat) (s pat rep : List Char) : List Char :=
  match fuel, s with
  | 0, _ => s
  | _ + 1, [] => []
  | f + 1, c :: t =>
    if pat.isPrefixOf (c :: t) && !pat.isEmpty then
      rep ++ replaceAllF f ((c :: t).drop pat.length) pat rep
    else c :: replaceAllF f t pat rep

/-- Go `strings.Trim(s, ",")`: strip leading and trailing commas. -/
def trimComma (s : String) : String :=
  let l := s.toList.dropWhile (· == ',')
  String.mk ((l.reverse.dropWhile (· == ',')).reverse)

/-- One left-to-right pass of
`strings.NewReplacer("no-cache=\"set-cookie\"", "", ",,", "", "public", "")`
(`cache/default_cache.go`, `var replacer`).  Go's `Replacer` scans the input
once, applying at each position the first argument pattern that matches,
without rescanning the produced output. -/
def replacerScanF (fuel : Nat) (s : List Char) : List Char :=
  match fuel, s with
  | 0, _ => s
  | _ + 1, [] => []
  | f + 1, c :: t =>
    if ("no-cache=\"set-cookie\"").toList.isPrefixOf (c :: t) then
      replacerScanF f ((c :: t).drop 21)
    else if (",,").toList.isPrefixOf (c :: t) then
      replacerScanF f ((c :: t).drop 2)
    else if ("public").toList.isPrefixOf (c :: t) then
      replacerScanF f ((c :: t).drop 6)
    else
      c :: replacerScanF f t

/-- The replacer pass at full fuel. -/
def replacerScan (s : List Char) : List Char :=
  replacerScanF s.length s

/-- `ccReplacer` from `cache/default_cache.go`:
`strings.Trim(replacer.Replace(cc), ",")`. -/
def ccReplacer (cc : String) : String :=
  trimComma (String.mk (replacerScan cc.toList))

/-- Digit run at the head of a list: the digits and the remainder. -/
def digitSpan (s : List Char) : List Char × List Char :=
  (s.takeWhile Char.isDigit, s.dropWhile Char.isDigit)

/-- Numeric value of a digit string (Go `strconv.Atoi` on a `\d+` capture;
integer overflow is not modelled — the repository never feeds values near
`MaxInt64`). -/
def digitsToNat (l : List Char) : Nat :=
  l.foldl (fun a c => a * 10 + (c.toNat - 48)) 0

/-- Attempt the tail of the directive regexes
`(?:\")?(\d+)(?:\")?(?:,|$)` at the head of `rest`; returns the captured
number.  Mirrors RE2's greedy matching of the two optional quotes: the
alternatives that RE2 would try are exactly the ones tested here. -/
def directiveTail (rest : List Char) : Option Nat :=
  let rest0 := if rest.head? == some '"' then rest.tail else rest
  let (ds, rest1) := digitSpan rest0
  if ds.isEmpty then none
  else
    let delimOk : List Char → Bool := fun l => l.isEmpty || l.head? == some ','
    if rest1.head? == some '"' then
      if delimOk rest1.tail then some (digitsToNat ds)
      else if delimOk rest1 then some (digitsToNat ds) else none
    else if delimOk rest1 then some (digitsToNat ds)
    else none

/-- Leftmost match of the regex `LIT(?:\")?(\d+)(?:\")?(?:,|$)` in `s`
(RE2 finds the match starting at the earliest position).  This is the common
shape of `smaxAgeFinder`, `maxAgeFinder`, `staleWhileRevaldateFinder`. -/
def findDir (lit : List Char) (s : List Char) : Option Nat :=
  match s with
  | [] => none
  | _ :: t =>
    match (if lit.isPrefixOf s then directiveTail (s.drop lit.length) else none) with
    | some n => some n
    | none => findDir lit t

/-- Leftmost directive match on `String`s. -/
def findDirective (lit : String) (s : String) : Option Nat :=
  findDir lit.toList s.toList

/-- `utilities.GetMaxAge` (`utilities/maxage.go`): prefer `s-maxage`, else
`max-age`; returns `(maxage, exists)`.  When the `Contains` guard fires but
the regex does not match, the `else if` is skipped and nothing is found,
exactly as in the source. -/
def getMaxAge (cacheControl : String) : Nat × Bool :=
  if containsStr cacheControl "s-maxage" then
    match findDirective "s-maxage=" cacheControl with
    | some n => (n, true)
    | none => (0, false)
  else if containsStr cacheControl "max-age" then
    match findDirective "max-age=" cacheControl with
    | some n => (n, true)
    | none => (0, false)
  else (0, false)

/-! ### `http.Header` (association list, canonical keys) -/

/-- Header map: list of (canonical key, values). -/
abbrev Header := List (String × List String)

/-- First binding of `k`, if any. -/
def assocFind (h : Header) (k : String) : Option (List String) :=
  match h with
  | [] => none
  | (k', vs) :: t => if k' = k then some vs else assocFind t k

/-- All values stored under `k` (Go `Header[k]`). -/
def getValues (h : Header) (k : String) : List String :=
  (assocFind h k).getD []

/-- Go `Header.Get`: first value under `k`, or `""`. -/
def headerGet (h : Header) (k : String) : String :=
  (getValues h k).headD ""

/-- Go `Header.Set`: replace the binding of `k` by the single value `v`. -/
def headerSet (h : Header) (k : String) (v : String) : Header :=
  match h with
  | [] => [(k, [v])]
  | (k', vs) :: t => if k' = k then (k, [v]) :: t else (k', vs) :: headerSet t k v

/-- Go `Header.Add`: append `v` to the values of `k`. -/
def headerAdd (h : Header) (k : String) (v : String) : Header :=
  match h with
  | [] => [(k, [v])]
  | (k', vs) :: t => if k' = k then (k, vs ++ [v]) :: t else (k', vs) :: headerAdd t k v

/-- Go `Header.Del`: drop the binding of `k`. -/
def headerDel (h : Header) (k : String) : Header :=
  match h with
  | [] => []
  | (k', vs) :: t => if k' = k then t else (k', vs) :: headerDel t k

/-- Replace the whole value list of `k` (used to model in-place
`r.Header["Set-Cookie"] = ...` slice surgery). -/
def headerSetAll (h : Header) (k : String) (vs : List String) : Header :=
  match h with
  | [] => [(k, vs)]
  | (k', vs') :: t => if k' = k then (k, vs) :: t else (k', vs') :: headerSetAll t k vs

/-- The header-copy loop of `fetch/responder.go` `RespondFromCache`
(lines 70–74): `Set` per value, so for each key the last value wins. -/
def copySet (dst : Header) (src : Header) : Header :=
  src.foldl (fun d p => p.2.foldl (fun d' v => headerSet d' p.1 v) d) dst

/-- The header-copy loop of `singleflight.Write` / `cache.copyHeader`:
`Add` per value, preserving every value. -/
def copyAdd (dst : Header) (src : Header) : Header :=
  src.foldl (fun d p => p.2.foldl (fun d' v => headerAdd d' p.1 v) d) dst

/-! ### Go `time` package: the four layouts used by `cache/response.go`
(`time.RFC1123`, `time.RFC850`, `time.ANSIC`, `time.RFC1123Z`) and
`Format(time.RFC1123)`.  Instants are epoch seconds (`Int`).  Alphabetic
zone abbreviations parse with offset 0, as Go does for a fabricated
location (GMT/UTC included); the process-local zone used by `Format` is
rendered as `UTC`. -/

def dayNames3 : List String := ["Sun", "Mon", "Tue", "Wed", "Thu", "Fri", "Sat"]

def dayNamesLong : List String :=
  ["Sunday", "Monday", "Tuesday", "Wednesday", "Thursday", "Friday", "Saturday"]

def monthNames : List String :=
  ["Jan", "Feb", "Mar", "Apr", "May", "Jun", "Jul", "Aug", "Sep", "Oct", "Nov", "Dec"]

/-- Exactly `n` decimal digits at the head of `l`. -/
def parseNDigits (n : Nat) (l : List Char) : Option (Nat × List Char) :=
  let ds := l.take n
  if ds.length = n && ds.all Char.isDigit then some (digitsToNat ds, l.drop n) else none

/-- Expect the literal `pat` at the head of `l`. -/
def expectStr (pat : String) (l : List Char) : Option (List Char) :=
  if pat.toList.isPrefixOf l then some (l.drop pat.toList.length) else none

/-- Three-letter month name at the head of `l`, as 1–12. -/
def parseMonth (l : List Char) : Option (Nat × List Char) :=
  match (monthNames.indexOf? (String.mk (l.take 3))) with
  | some i => some (i + 1, l.drop 3)
  | none => none

/-- `hh:mm:ss` with two digits each. -/
def parseClock (l : List Char) : Option (Nat × Nat × Nat × List Char) := do
  let (hh, l) ← parseNDigits 2 l
  let l ← expectStr ":" l
  let (mm, l) ← parseNDigits 2 l
  let l ← expectStr ":" l
  let (ss, l) ← parseNDigits 2 l
  pure (hh, mm, ss, l)

/-- Days in a month, with Gregorian leap years (Go validates the parsed day
against this). -/
def monthLen (y m : Nat) : Nat :=
  if m = 2 then (if y % 4 = 0 && (y % 100 ≠ 0 || y % 400 = 0) then 29 else 28)
  else if m = 4 || m = 6 || m = 9 || m = 11 then 30 else 31

/-- Field ranges checked by Go's `time.Parse`. -/
def validDate (y m d hh mm ss : Nat) : Bool :=
  1 ≤ d && d ≤ monthLen y m && hh < 24 && mm < 60 && ss < 60

/-- Days since 1970-01-01 of the civil date y-m-d (standard civil-from-days
algorithm; years of interest are all ≥ 1583 so `Nat` arithmetic is exact). -/
def daysFromCivil (y m d : Nat) : Int :=
  let y' := if m ≤ 2 then y - 1 else y
  let era := y' / 400
  let yoe := y' % 400
  let mp := (m + 9) % 12
  let doy := (153 * mp + 2) / 5 + d - 1
  let doe := yoe * 365 + yoe / 4 - yoe / 100 + doy
  (era * 146097 + doe : Int) - 719468

/-- Epoch seconds of a date-time with a fixed zone offset. -/
def epochOf (y m d hh mm ss : Nat) (off : Int) : Int :=
  daysFromCivil y m d * 86400 + (hh * 3600 + mm * 60 + ss : Nat) - off

/-- Alphabetic zone abbreviation: upper-case letters, offset 0. -/
def zoneOk (l : List Char) : Bool :=
  !l.isEmpty && l.all Char.isUpper

/-- Go `time.Parse(time.RFC1123, s)` — layout `Mon, 02 Jan 2006 15:04:05 MST`. -/
def parseRFC1123 (s : String) : Option Int := do
  let l := s.toList
  guard (dayNames3.contains (String.mk (l.take 3)))
  let l ← expectStr ", " (l.drop 3)
  let (d, l) ← parseNDigits 2 l
  let l ← expectStr " " l
  let (m, l) ← parseMonth l
  let l ← expectStr " " l
  let (y, l) ← parseNDigits 4 l
  let l ← expectStr " " l
  let (hh, mm, ss, l) ← parseClock l
  let l ← expectStr " " l
  guard (zoneOk l)
  guard (validDate y m d hh mm ss)
  pure (epochOf y m d hh mm ss 0)

/-- Go `time.Parse(time.RFC1123Z, s)` — layout with numeric zone `-0700`;
the parsed offset is subtracted to reach UTC epoch seconds. -/
def parseRFC1123Z (s : String) : Option Int := do
  let l := s.toList
  guard (dayNames3.contains (String.mk (l.take 3)))
  let l ← expectStr ", " (l.drop 3)
  let (d, l) ← parseNDigits 2 l
  let l ← expectStr " " l
  let (m, l) ← parseMonth l
  let l ← expectStr " " l
  let (y, l) ← parseNDigits 4 l
  let l ← expectStr " " l
  let (hh, mm, ss, l) ← parseClock l
  let l ← expectStr " " l
  let sign ← match l.head? with
    | some '+' => some (1 : Int)
    | some '-' => some (-1 : Int)
    | _ => none
  let (zh, l) ← parseNDigits 2 l.tail
  let (zm, l) ← parseNDigits 2 l
  guard l.isEmpty
  guard (validDate y m d hh mm ss)
  pure (epochOf y m d hh mm ss (sign * (zh * 3600 + zm * 60 : Nat)))

/-- Go `time.Parse(time.RFC850, s)` — layout
`Monday, 02-Jan-06 15:04:05 MST`; two-digit years 69–99 are 19xx, 00–68
are 20xx, as in Go. -/
def parseRFC850 (s : String) : Option Int := do
  let l := s.toList
  let dayLen ← dayNamesLong.findSome?
    (fun d => if d.toList.isPrefixOf l then some d.length else none)
  let l ← expectStr ", " (l.drop dayLen)
  let (d, l) ← parseNDigits 2 l
  let l ← expectStr "-" l
  let (m, l) ← parseMonth l
  let l ← expectStr "-" l
  let (yy, l) ← parseNDigits 2 l
  let y := if 69 ≤ yy then 1900 + yy else 2000 + yy
  let l ← expectStr " " l
  let (hh, mm, ss, l) ← parseClock l
  let l ← expectStr " " l
  guard (zoneOk l)
  guard (validDate y m d hh mm ss)
  pure (epochOf y m d hh mm ss 0)

/-- Go `time.Parse(time.ANSIC, s)` — layout `Mon Jan _2 15:04:05 2006`
(no zone: Go yields UTC). -/
def parseANSIC (s : String) : Option Int := do
  let l := s.toList
  guard (dayNames3.contains (String.mk (l.take 3)))
  let l ← expectStr " " (l.drop 3)
  let (m, l) ← parseMonth l
  let l ← expectStr " " l
  let (d, l) ← if l.head? == some ' ' then parseNDigits 1 l.tail else parseNDigits 2 l
  let l ← expectStr " " l
  let (hh, mm, ss, l) ← parseClock l
  let l ← expectStr " " l
  let (y, l) ← parseNDigits 4 l
  guard l.isEmpty
  guard (validDate y m d hh mm ss)
  pure (epochOf y m d hh mm ss 0)

/-- Civil date of a day count since the epoch (non-negative). -/
def civilFromDaysN (z : Nat) : Nat × Nat × Nat :=
  let z' := z + 719468
  let era := z' / 146097
  let doe := z' % 146097
  let yoe := (doe - doe / 1460 + doe / 36524 - doe / 146096) / 365
  let y := yoe + era * 400
  let doy := doe - (365 * yoe + yoe / 4 - yoe / 100)
  let mp := (5 * doy + 2) / 153
  let d := doy - (153 * mp + 2) / 5 + 1
  let m := if mp < 10 then mp + 3 else mp - 9
  (if m ≤ 2 then y + 1 else y, m, d)

/-- Two-digit zero padding. -/
def pad2 (n : Nat) : String := if n < 10 then "0" ++ toString n else toString n

/-- Go `t.Format(time.RFC1123)` for a post-1970 instant, in the process
zone (UTC). -/
def fmtRFC1123 (t : Int) : String :=
  let tn := t.toNat
  let days := tn / 86400
  let secs := tn % 86400
  let c := civilFromDaysN days
  dayNames3.getD ((days + 4) % 7) "" ++ ", " ++ pad2 c.2.2 ++ " " ++
    monthNames.getD (c.2.1 - 1) "" ++ " " ++ toString c.1 ++ " " ++
    pad2 (secs / 3600) ++ ":" ++ pad2 (secs % 3600 / 60) ++ ":" ++
    pad2 (secs % 60) ++ " UTC"

/-! ### `encoding/base64` standard encoding -/

/-- Standard base64 alphabet character. -/
def b64Char (n : Nat) : Char :=
  ("ABCDEFGHIJKLMNOPQRSTUVWXYZabcdefghijklmnopqrstuvwxyz0123456789+/".toList).getD n 'A'

/-- Encode bytes three at a time, padding with `=`. -/
def base64Chunks : List Nat → List Char
  | [] => []
  | [a] => [b64Char (a / 4), b64Char (a % 4 * 16), '=', '=']
  | [a, b] => [b64Char (a / 4), b64Char (a % 4 * 16 + b / 16), b64Char (b % 16 * 4), '=']
  | a :: b :: c :: rest =>
    [b64Char (a / 4), b64Char (a % 4 * 16 + b / 16), b64Char (b % 16 * 4 + c / 64),
      b64Char (c % 64)] ++ base64Chunks rest

/-- Go `base64.StdEncoding.EncodeToString`. -/
def base64Encode (bs : List Nat) : String := String.mk (base64Chunks bs)

/-! ### Requests, responses, sinks -/

/-- An `*http.Request` as the cache core sees it: method, structured URL
(scheme/host/path-and-query), the `Host` field, headers, and the cookies
already parsed from the `Cookie` header (Go's `Request.Cookies()` /
`Request.Cookie(name)`, which are `net/http` library code). -/
structure Request where
  method : String
  urlScheme : String
  urlHost : String
  urlRest : String
  hostHdr : String := ""
  headers : Header
  cookies : List (String × String)
deriving DecidableEq, Repr

/-- Go `r.URL.String()`. -/
def urlString (r : Request) : String :=
  r.urlScheme ++ "://" ++ r.urlHost ++ r.urlRest

/-- Go `r.Cookie(name)`: the first request cookie named `n`. -/
def reqCookie (r : Request) (n : String) : Option (String × String) :=
  r.cookies.find? (fun c => c.1 == n)

/-- The cached artifact `cache.responseImpl` (`cache/response.go`): status
code, normalised headers, buffered body, the cookie map extracted from
`Set-Cookie`, the headers of the request that produced it, and the birth
instant `now` (whose zone offset feeds the ANSIC `Expires` correction). -/
structure Response where
  statusCode : Nat
  headers : Header
  body : List Nat
  requestHeaders : Header
  cookies : List (String × String)
  birth : Int
  nowZoneOff : Int := 0
deriving DecidableEq, Repr

/-- `responseImpl.Cookie(name)` — lookup in the cookie map. -/
def respCookie (resp : Response) (n : String) : Option (String × String) :=
  resp.cookies.find? (fun c => c.1 == n)

/-- An `http.ResponseWriter` observed through what was written to it. -/
structure Sink where
  headers : Header := []
  status : Option Nat := none
  body : List Nat := []
deriving DecidableEq, Repr

/-- Fresh recorder (`httptest.NewRecorder`) / untouched client sink. -/
def emptySink : Sink := {}

/-- `w.WriteHeader(code)`. -/
def writeHeaderS (w : Sink) (code : Nat) : Sink := { w with status := some code }

/-- `w.Write(body)`. -/
def writeBody (w : Sink) (b : List Nat) : Sink := { w with body := w.body ++ b }

/-! ### `utilities.GetVaryHeadersHash` and the default cacher -/

/-- Go `strings.Replace(s, "::", "::::", -1)`. -/
def escDots (s : String) : String :=
  String.mk (replaceAllF s.toList.length s.toList "::".toList "::::".toList)

/-- `utilities.GetVaryHeadersHash`: the secondary-key suffix derived from the
response's `Vary` list, a header getter and the allow-listed cookies, in
configured order. -/
def getVaryHeadersHash (headers : Header)
    (getCookie : String → Option (String × String))
    (allowedCookieNames : List String) (vary : String) : String :=
  if vary = "" then ""
  else
    (goSplitOn vary ",").foldl (fun acc h =>
      if h ≠ "cookie" then acc ++ "::" ++ headerGet headers h
      else
        allowedCookieNames.foldl (fun acc2 n =>
          match getCookie n with
          | some c => acc2 ++ " :: " ++ escDots c.1 ++ " :: " ++ escDots c.2
          | none => acc2 ++ " :: " ++ escDots n ++ " :: ") acc) ""

/-- String-valued association lookup (for the `vary sync.Map`). -/
def assocFindS (l : List (String × String)) (k : String) : Option String :=
  match l with
  | [] => none
  | (k', v) :: t => if k' = k then some v else assocFindS t k

/-- String-valued association update. -/
def assocSetS (l : List (String × String)) (k v : String) : List (String × String) :=
  match l with
  | [] => [(k, v)]
  | (k', v') :: t => if k' = k then (k, v) :: t else (k', v') :: assocSetS t k v

/-- Response-valued association lookup (for the `entries sync.Map`). -/
def assocFindR (l : List (String × Response)) (k : String) : Option Response :=
  match l with
  | [] => none
  | (k', v) :: t => if k' = k then some v else assocFindR t k

/-- Response-valued association update (`sync.Map.Store`: last writer wins). -/
def assocSetR (l : List (String × Response)) (k : String) (v : Response) :
    List (String × Response) :=
  match l with
  | [] => [(k, v)]
  | (k', v') :: t => if k' = k then (k, v) :: t else (k', v') :: assocSetR t k v

/-- The mutable state of `cache.defaultCacher` that the claims touch: the
per-primary-key `Vary` memo, the entry store, and the allow-listed cookie
names in insertion order.  (`skipUrls`/`skipRegex`/`allowedCookies` only
feed `CanCache` and the `Set-Cookie` filter; the filter uses the same name
set as `allowedCookieNames`.) -/
structure CacherState where
  varyMemo : List (String × String) := []
  entries : List (String × Response) := []
  allowedCookieNames : List String := []

/-- `defaultCacher.Hash` (`cache/default_cache.go` lines 272–285): method and
full URL; then, if a `Vary` memo exists for that prefix, the Vary-headers
hash of the current request; then any `X-Honey-Vary` header verbatim. -/
def dHash (c : CacherState) (r : Request) : String :=
  let key := r.method ++ " :: " ++ urlString r
  let key :=
    match assocFindS c.varyMemo key with
    | some vary =>
      key ++ getVaryHeadersHash r.headers (reqCookie r) c.allowedCookieNames vary
    | none => key
  let xhv := headerGet r.headers "X-Honey-Vary"
  if xhv = "" then key else key ++ xhv

/-- `defaultCacher.Cache` (lines 378–385): memoise a non-empty `Vary`,
extend the key by the response's own Vary-headers hash, store. -/
def dCache (c : CacherState) (hash : String) (r : Response) : CacherState :=
  let vary := headerGet r.headers "Vary"
  let c1 := if vary ≠ "" then { c with varyMemo := assocSetS c.varyMemo hash vary } else c
  let key := hash ++ getVaryHeadersHash r.requestHeaders (respCookie r) c.allowedCookieNames vary
  { c1 with entries := assocSetR c1.entries key r }

/-- `defaultCacher.Load` (lines 390–397): plain lookup of the supplied hash
(the request argument is unused by the source). -/
def dLoad (c : CacherState) (hash : String) (_r : Request) : Option Response :=
  assocFindR c.entries hash

/-! ### `responseImpl.Validate` (`cache/response.go` lines 78–164) -/

/-- `Validate(req)`: freshness/conditional evaluation of a cached response
at current time `t` (seconds).  `If-UnModified-Since` and
`If-Unmodified-Since` are the same canonical key in Go, written here in
canonical form. -/
def validate (t : Int) (resp : Response) (req : Request) : Bool × Nat :=
  let reqCC := headerGet req.headers "Cache-Control"
  if containsStr reqCC "must-revalidate" || containsStr reqCC "proxy-revalidate" then
    let cc := headerGet resp.headers "Cache-Control"
    let ageOpt : Option Nat :=
      if containsStr cc "s-maxage" then findDirective "s-maxage=" cc
      else if containsStr cc "max-age" then findDirective "max-age=" cc
      else none
    match ageOpt with
    | some delta => (decide (t - resp.birth < (delta : Int)), 304)
    | none =>
      let expS := headerGet resp.headers "Expires"
      if expS = "" || expS = "0" then (false, 0)
      else
        let e1 := parseRFC1123 expS
        let e2 := match e1 with | some v => some v | none => parseRFC850 expS
        let e3 := match e2 with
          | some v => some v
          | none => (parseANSIC expS).map (fun x => x - resp.nowZoneOff)
        let e4 := match e3 with | some v => some v | none => parseRFC1123Z expS
        match e4 with
        | none => (false, 0)
        | some ex => (decide (resp.birth < ex), 304)
  else if headerGet req.headers "If-Modified-Since" ≠ "" ||
      headerGet req.headers "If-Unmodified-Since" ≠ "" then
    match parseRFC1123 (headerGet resp.headers "Last-Modified") with
    | none => (false, 0)
    | some modified =>
      if headerGet req.headers "If-Modified-Since" ≠ "" then
        match parseRFC1123 (headerGet req.headers "If-Modified-Since") with
        | none => (false, 0)
        | some since => (decide (modified < since), 304)
      else
        match parseRFC1123 (headerGet req.headers "If-Unmodified-Since") with
        | none => (false, 0)
        | some ius => if !(decide (modified < ius)) then (true, 412) else (false, 200)
  else (true, 304)

/-! ### `defaultCacher.Standardize` (`cache/default_cache.go` lines 303–375) -/

/-- An origin `*http.Response` before standardisation. -/
structure HttpResponse where
  statusCode : Nat
  headers : Header
  body : List Nat
  requestHeaders : Option Header := none

/-- Keep a `Set-Cookie` line?  Mirrors the deletion loop of `Standardize`
(a line is deleted exactly when it names a cookie that is not
allow-listed; blank or `=`-less lines are kept via `continue`). -/
def keepSetCookie (names : List String) (line : String) : Bool :=
  let parts := goSplitOn (trimSpace line) ";"
  if parts.length = 1 && parts.headD "" = "" then true
  else
    let p0 := trimSpace (parts.headD "")
    match p0.toList.indexOf? '=' with
    | none => true
    | some j => names.contains (String.mk (p0.toList.take j))

/-- The in-place `Set-Cookie` filtering loop. -/
def stdFilterSetCookie (names : List String) (h : Header) : Header :=
  match assocFind h "Set-Cookie" with
  | none => h
  | some vs => headerSetAll h "Set-Cookie" (vs.filter (keepSetCookie names))

/-- The `Cache-Control` value after the `public` step: the Go local `cc`
after line 337 (`cc = ccReplacer(cc + ",public")` unless the original
header contains `private`). -/
def stdCC1 (cc0 : String) : String :=
  if !containsStr cc0 "private" then ccReplacer (cc0 ++ ",public") else cc0

/-- The `Cache-Control` value after the `max-age` step: the Go local `cc`
after line 342. -/
def stdCC2 (cc0 : String) : String :=
  let cc1 := stdCC1 cc0
  if !containsStr cc1 "no-cache" && !containsStr cc1 "max-age" then
    ccReplacer (cc1 ++ ",max-age=300")
  else cc1

/-- First `name=value` of a `Set-Cookie` line, as `http.Response.Cookies()`
reads it (quote-stripping and attribute validation of `net/http` are beyond
the cache's use of the map and are omitted). -/
def parseCookieLine (line : String) : Option (String × String) :=
  let p0 := trimSpace ((goSplitOn (trimSpace line) ";").headD "")
  match p0.toList.indexOf? '=' with
  | none => none
  | some j =>
    let name := String.mk (p0.toList.take j)
    if name = "" then none
    else some (name, String.mk (p0.toList.drop (j + 1)))

/-- The cookie map built at the end of `Standardize`
(`resp.cookies[cookie.Name] = cookie`: later lines win). -/
def setCookiesOf (vs : List String) : List (String × String) :=
  vs.foldl (fun acc line =>
    match parseCookieLine line with
    | some c => assocSetS acc c.1 c.2
    | none => acc) []

/-- `Standardize(r)` at instant `t`, with the external BLAKE2b-256 digest
passed as `digest`.  Returns the stored `Response` artifact and the mutated
forwarded headers (`r.Header`).  Note the source's threading: the local
`cc` is not refreshed by the `no-cache="set-cookie"` branch, the `private`
test re-reads `r.Header` (still the original value), and the
`Last-Modified`/`Expires` defaults go only to the forwarded headers. -/
def standardize (names : List String) (digest : List Nat → List Nat) (t : Int)
    (r : HttpResponse) : Response × Header :=
  let hf := stdFilterSetCookie names r.headers
  let stored0 := hf
  let cc0 := headerGet stored0 "Cache-Control"
  let stored1 :=
    if containsStr cc0 "no-cache=\"set-cookie\"" then
      headerSet (headerDel stored0 "Set-Cookie") "Cache-Control" (ccReplacer cc0)
    else stored0
  let stored2 :=
    if !containsStr cc0 "private" then headerSet stored1 "Cache-Control" (stdCC1 cc0)
    else stored1
  let cc1 := stdCC1 cc0
  let stored3 :=
    if !containsStr cc1 "no-cache" && !containsStr cc1 "max-age" then
      headerSet stored2 "Cache-Control" (stdCC2 cc0)
    else stored2
  let cc2 := stdCC2 cc0
  let fwd1 :=
    if headerGet hf "Last-Modified" = "" then
      headerSet hf "Last-Modified" (fmtRFC1123 t)
    else hf
  let fwd2 :=
    if headerGet fwd1 "Expires" = "" then
      headerSet fwd1 "Expires" (fmtRFC1123 (t + 3600))
    else fwd1
  let etagged : Header × Header :=
    if !containsStr cc2 "no-store" then
      let e := base64Encode (digest r.body)
      (headerSet stored3 "Etag" e, headerSet fwd2 "Etag" e)
    else (stored3, fwd2)
  (⟨r.statusCode, etagged.1, r.body, r.requestHeaders.getD [],
      setCookiesOf (getValues etagged.2 "Set-Cookie"), t, 0⟩,
    etagged.2)

/-! ### `fetch/responder.go`: `RespondFromCache`, and `fetch/fetch.go`:
`Fetch`, `SwitchBackend` -/

/-- `isNotModified` (identical private helpers in `fetch/responder.go` and
`singleflight/singleflight.go`). -/
def isNotModified (r : Request) (resp : Response) : Bool :=
  let inm := headerGet r.headers "If-None-Match"
  inm != "" && inm == headerGet resp.headers "Etag"

/-- `strconv.Atoi(resp.Age())`: `Age` prints `uint64(time.Since(now) /
time.Second)`; when `t` precedes the birth instant the cast wraps to a
number beyond `MaxInt64` and `Atoi` fails, modelled as `none`. -/
def ageParsed (t : Int) (resp : Response) : Option Nat :=
  if resp.birth ≤ t then some (t - resp.birth).toNat else none

/-- A `cache.Cacher` as the mediator consumes it (it is a Go interface;
`fetch.Fetch`/`RespondFromCache` are generic in the implementation). -/
structure Cacher where
  canCache : Request → Bool
  hashFn : Request → String
  load : String → Request → Option Response

/-- The `(responded, statusCode, revalidate)` computation of
`RespondFromCache` (`fetch/responder.go` lines 38–68): validate when the
request carries revalidation intent, otherwise treat a find as fresh with
status 304; on failed validation consult `stale-while-revalidate` — all
directives read from the request's own `Cache-Control` `cc`. -/
def rfcDecision (t : Int) (cc : String) (resp : Response) (req : Request)
    (found : Bool) : Bool × Nat × Bool :=
  if found && (containsStr cc "must-revalidate" || containsStr cc "proxy-revalidate" ||
      containsStr cc "max-age") then
    let vd := validate t resp req
    if !vd.1 && containsStr cc "stale-while-revalidate" then
      match ageParsed t resp with
      | some age =>
        let mg := getMaxAge cc
        let maxAge := if mg.2 then mg.1 else 0
        match findDirective "stale-while-revalidate=" cc with
        | some so => if maxAge + so > age then (true, vd.2, true) else (vd.1, vd.2, false)
        | none => (vd.1, vd.2, false)
      | none => (vd.1, vd.2, false)
    else (vd.1, vd.2, false)
  else (found, 304, false)

/-- Result of `RespondFromCache`: the hash, the two returned booleans, and
the state of the client sink. -/
structure RFCResult where
  hash : String
  responded : Bool
  revalidate : Bool
  sink : Sink
deriving DecidableEq, Repr

/-- `RespondFromCache` (`fetch/responder.go` lines 30–84). -/
def respondFromCache (t : Int) (c : Cacher) (w : Sink) (r : Request) : RFCResult :=
  let hash := c.hashFn r
  let cc := headerGet r.headers "Cache-Control"
  if containsStr cc "no-cache" || headerGet r.headers "Pragma" == "no-cache" then
    ⟨hash, false, false, w⟩
  else
    match c.load hash r with
    | none => ⟨hash, false, false, w⟩
    | some resp =>
      let d := rfcDecision t cc resp r true
      if d.1 then
        let w1 : Sink :=
          { w with headers := headerSet (copySet w.headers resp.headers) "X-Honey-Cache" "HIT" }
        let w2 :=
          if isNotModified r resp then writeHeaderS w1 d.2.1
          else writeBody (writeHeaderS w1 resp.statusCode) resp.body
        ⟨hash, true, d.2.2, w2⟩
      else ⟨hash, false, d.2.2, w⟩

/-- The configured backend (`*url.URL`). -/
structure Backend where
  scheme : String
  host : String

/-- `SwitchBackend` (`fetch/fetch.go` lines 77–84). -/
def switchBackend (b : Backend) (r : Request) : Request :=
  let r1 := { r with hostHdr := r.urlHost, urlHost := b.host }
  let r2 :=
    if headerGet r1.headers "X-Forwarded-Proto" = "" then
      { r1 with headers := headerAdd r1.headers "X-Forwarded-Proto" r1.urlScheme }
    else r1
  { r2 with urlScheme := b.scheme }

/-- Outcome of one pass of the `Fetch` handler: the sink the client keeps,
whether the downstream handler (the Forwarder) was invoked, and whether the
request joined an in-flight singleflight group. -/
structure FetchResult where
  sink : Sink
  handlerCalled : Bool
  joined : Bool
deriving DecidableEq, Repr

/-- `Fetch` (`fetch/fetch.go` lines 16–55).  `inflight` abstracts
`singleflights.LoadOrStore` finding an existing group for a hash; joining
blocks on that group (its eventual write to the sink is the group's doing
and is modelled separately by `sfWrite`). -/
def fetch (t : Int) (c : Cacher) (handler : Sink → Request → Sink)
    (inflight : String → Bool) (b : Backend) (w : Sink) (r : Request) : FetchResult :=
  let r' := switchBackend b r
  if c.canCache r' then
    let res := respondFromCache t c w r'
    if res.responded then ⟨res.sink, false, false⟩
    else
      let w' := if res.revalidate then emptySink else res.sink
      if !res.revalidate &&
          containsStr (headerGet r'.headers "Cache-Control") "only-if-cached" then
        ⟨writeHeaderS res.sink 504, false, false⟩
      else if inflight res.hash then ⟨w', false, true⟩
      else ⟨handler w' r', true, false⟩
  else
    let w1 : Sink := { w with headers := headerSet w.headers "X-Honey-Cache" "NO-CACHE" }
    ⟨handler w1 r', true, false⟩

/-! ### `singleflight.Write` (`singleflight/singleflight.go` lines 92–155) -/

/-- `resp.Age()` as a string (`uint64` of the elapsed whole seconds). -/
def ageString (t : Int) (resp : Response) : String :=
  toString (t - resp.birth).toNat

/-- The per-waiter goroutine of the matching Vary bucket (lines 120–137):
`Add`-copy every header value, stamp `X-Honey-Cache: MISS (MULTIPLEXED)`
and `Age`, then 304 or status+body. -/
def dispatchMatch (t : Int) (resp : Response) (w : Sink) (req : Request) : Sink :=
  let h1 := copyAdd w.headers resp.headers
  let h2 := headerSet (headerSet h1 "X-Honey-Cache" "MISS (MULTIPLEXED)") "Age"
    (ageString t resp)
  let w1 : Sink := { w with headers := h2 }
  if isNotModified req resp then writeHeaderS w1 304
  else writeBody (writeHeaderS w1 resp.statusCode) resp.body

/-- Result of `singleflight.Write`: the returned boolean, the final state
of each waiter's sink (in waiter order), the number of `Done()` calls on
the completion counter, and the group's `cacheable` flag. -/
structure WriteResult where
  ok : Bool
  sinks : List Sink
  done : Nat
  cacheable : Bool

/-- `singleflight.Write(r)`: uncacheable responses (`private`, `no-store`,
or `Vary: *`) release every waiter untouched and return `false`; otherwise
waiters are bucketed by their Vary-headers hash against the leader's — the
matching bucket is served the response, every other bucket is re-submitted
to the handler with `X-Honey-Vary` forcing a distinct key.  Each waiter is
dispatched exactly once, so the concurrent loops are a `map`. -/
def sfWrite (t : Int) (names : List String) (handler : Sink → Request → Sink)
    (resp : Response) (waiters : List (Sink × Request)) : WriteResult :=
  let cc := headerGet resp.headers "Cache-Control"
  let vary := headerGet resp.headers "Vary"
  if containsStr cc "private" || containsStr cc "no-store" || vary == "*" then
    ⟨false, waiters.map Prod.fst, waiters.length, false⟩
  else
    let leaderHash := getVaryHeadersHash resp.requestHeaders (respCookie resp) names vary
    ⟨true,
      waiters.map (fun p =>
        let h := getVaryHeadersHash p.2.headers (reqCookie p.2) names vary
        if h == leaderHash then dispatchMatch t resp p.1 p.2
        else handler p.1 { p.2 with headers := headerSet p.2.headers "X-Honey-Vary" h }),
      waiters.length, true⟩

/-! ### `FlushSingleflight` admission (`fetch/responder.go` lines 107–113) -/

/-- The store-admission step of the response-modifier hook: cache the
standardised response unless its `Cache-Control` contains `no-store` or its
status is a server error. -/
def flushAdmit (c : CacherState) (hash : String) (response : Response) : CacherState :=
  let cc := headerGet response.headers "Cache-Control"
  if !containsStr cc "no-store" && decide (response.statusCode < 500) then
    dCache c hash response
  else c

/-! ## Lemmas about the embedded operations -/

theorem assocFind_headerSet_self (h : Header) (k v : String) :
    assocFind (headerSet h k v) k = some [v] := by
  induction h with
  | nil => simp [headerSet, assocFind]
  | cons p t ih =>
    obtain ⟨k', vs⟩ := p
    by_cases hk : k' = k <;> simp [headerSet, assocFind, hk, ih]

theorem assocFind_headerSet_other (h : Header) (k k' v : String) (hne : k' ≠ k) :
    assocFind (headerSet h k v) k' = assocFind h k' := by
  induction h with
  | nil => simp [headerSet, assocFind, hne.symm]
  | cons p t ih =>
    obtain ⟨k'', vs⟩ := p
    simp only [headerSet]
    by_cases hk : k'' = k
    · subst hk
      simp [assocFind, hne.symm]
    · simp only [hk, if_false]
      by_cases hk2 : k'' = k' <;> simp [assocFind, hk2, ih]

theorem getValues_headerSet_self (h : Header) (k v : String) :
    getValues (headerSet h k v) k = [v] := by
  simp [getValues, assocFind_headerSet_self]

theorem getValues_headerSet_other (h : Header) (k k' v : String) (hne : k' ≠ k) :
    getValues (headerSet h k v) k' = getValues h k' := by
  simp [getValues, assocFind_headerSet_other h k k' v hne]

theorem headerGet_headerSet_self (h : Header) (k v : String) :
    headerGet (headerSet h k v) k = v := by
  simp [headerGet, getValues_headerSet_self]

theorem assocFind_headerAdd_self (h : Header) (k v : String) :
    assocFind (headerAdd h k v) k = some (getValues h k ++ [v]) := by
  induction h with
  | nil => simp [headerAdd, assocFind, getValues]
  | cons p t ih =>
    obtain ⟨k', vs⟩ := p
    by_cases hk : k' = k <;> simp [headerAdd, assocFind, getValues, hk, ih]

theorem assocFind_headerAdd_other (h : Header) (k k' v : String) (hne : k' ≠ k) :
    assocFind (headerAdd h k v) k' = assocFind h k' := by
  induction h with
  | nil => simp [headerAdd, assocFind, hne.symm]
  | cons p t ih =>
    obtain ⟨k'', vs⟩ := p
    simp only [headerAdd]
    by_cases hk : k'' = k
    · subst hk
      simp [assocFind, hne.symm]
    · simp only [hk, if_false]
      by_cases hk2 : k'' = k' <;> simp [assocFind, hk2, ih]

theorem getValues_headerAdd_self (h : Header) (k v : String) :
    getValues (headerAdd h k v) k = getValues h k ++ [v] := by
  simp [getValues, assocFind_headerAdd_self]

theorem getValues_headerAdd_other (h : Header) (k k' v : String) (hne : k' ≠ k) :
    getValues (headerAdd h k v) k' = getValues h k' := by
  simp [getValues, assocFind_headerAdd_other h k k' v hne]

theorem assocFind_headerDel_other (h : Header) (k k' : String) (hne : k' ≠ k) :
    assocFind (headerDel h k) k' = assocFind h k' := by
  induction h with
  | nil => simp [headerDel]
  | cons p t ih =>
    obtain ⟨k'', vs⟩ := p
    simp only [headerDel]
    by_cases hk : k'' = k
    · subst hk
      simp [assocFind, hne.symm]
    · simp only [hk, if_false]
      by_cases hk2 : k'' = k' <;> simp [assocFind, hk2, ih]

theorem getValues_headerDel_other (h : Header) (k k' : String) (hne : k' ≠ k) :
    getValues (headerDel h k) k' = getValues h k' := by
  simp [getValues, assocFind_headerDel_other h k k' hne]

theorem assocSetR_find_self (l : List (String × Response)) (k : String) (v : Response) :
    assocFindR (assocSetR l k v) k = some v := by
  induction l with
  | nil => simp [assocSetR, assocFindR]
  | cons p t ih =>
    obtain ⟨k', v'⟩ := p
    by_cases hk : k' = k <;> simp [assocSetR, assocFindR, hk, ih]

/-- Folding `Set` over a non-empty value list leaves exactly the last value. -/
theorem setFold_self (vls : List String) (d : Header) (k : String) (hne : vls ≠ []) :
    getValues (vls.foldl (fun d' v => headerSet d' k v) d) k = [vls.getLastD ""] := by
  induction vls generalizing d with
  | nil => exact absurd rfl hne
  | cons v rest ih =>
    cases hr : rest with
    | nil => simp [getValues_headerSet_self]
    | cons v2 rest2 =>
      rw [List.foldl_cons]
      rw [hr] at ih
      rw [ih (headerSet d k v) (by simp)]
      simp [List.getLastD_eq_getLast?, List.getLast?]

theorem setFold_other (vls : List String) (d : Header) (k k' : String) (hne : k' ≠ k) :
    getValues (vls.foldl (fun d' v => headerSet d' k v) d) k' = getValues d k' := by
  induction vls generalizing d with
  | nil => rfl
  | cons v rest ih =>
    rw [List.foldl_cons, ih (headerSet d k v), getValues_headerSet_other d k k' v hne]

/-- Folding `Add` over a value list appends every value. -/
theorem addFold_self (vls : List String) (d : Header) (k : String) :
    getValues (vls.foldl (fun d' v => headerAdd d' k v) d) k = getValues d k ++ vls := by
  induction vls generalizing d with
  | nil => simp
  | cons v rest ih =>
    rw [List.foldl_cons, ih (headerAdd d k v), getValues_headerAdd_self]
    simp

theorem addFold_other (vls : List String) (d : Header) (k k' : String) (hne : k' ≠ k) :
    getValues (vls.foldl (fun d' v => headerAdd d' k v) d) k' = getValues d k' := by
  induction vls generalizing d with
  | nil => rfl
  | cons v rest ih =>
    rw [List.foldl_cons, ih (headerAdd d k v), getValues_headerAdd_other d k k' v hne]

theorem copySet_absent (src : Header) (d : Header) (key : String)
    (h : ∀ p ∈ src, p.1 ≠ key) :
    getValues (copySet d src) key = getValues d key := by
  induction src generalizing d with
  | nil => rfl
  | cons p t ih =>
    simp only [copySet, List.foldl_cons] at ih ⊢
    rw [ih _ (fun q hq => h q (List.mem_cons_of_mem p hq))]
    exact setFold_other p.2 d p.1 key (h p (List.mem_cons_self p t)).symm

theorem copyAdd_absent (src : Header) (d : Header) (key : String)
    (h : ∀ p ∈ src, p.1 ≠ key) :
    getValues (copyAdd d src) key = getValues d key := by
  induction src generalizing d with
  | nil => rfl
  | cons p t ih =>
    simp only [copyAdd, List.foldl_cons] at ih ⊢
    rw [ih _ (fun q hq => h q (List.mem_cons_of_mem p hq))]
    exact addFold_other p.2 d p.1 key (h p (List.mem_cons_self p t)).symm

/-- `Set`-copying a header map with distinct keys: the copied value of a
bound key is its last source value. -/
theorem copySet_found (src : Header) (d : Header) (key : String) (vs : List String)
    (hfind : assocFind src key = some vs) (hne : vs ≠ [])
    (hnd : (src.map Prod.fst).Nodup) :
    getValues (copySet d src) key = [vs.getLastD ""] := by
  induction src generalizing d with
  | nil => simp [assocFind] at hfind
  | cons p t ih =>
    obtain ⟨k', vls⟩ := p
    simp only [List.map_cons, List.nodup_cons] at hnd
    by_cases hk : k' = key
    · subst hk
      simp [assocFind] at hfind
      subst hfind
      have habs : ∀ p ∈ t, p.1 ≠ k' := by
        intro q hq he
        exact hnd.1 (he ▸ List.mem_map_of_mem Prod.fst hq)
      have hstep : copySet d ((k', vls) :: t) =
          copySet (vls.foldl (fun d' v => headerSet d' k' v) d) t := by
        simp [copySet]
      rw [hstep, copySet_absent t _ k' habs]
      exact setFold_self vls d k' hne
    · simp only [assocFind, if_neg hk] at hfind
      have hstep : copySet d ((k', vls) :: t) =
          copySet (vls.foldl (fun d' v => headerSet d' k' v) d) t := by
        simp [copySet]
      rw [hstep]
      exact ih _ hfind hnd.2

/-- `Add`-copying a header map with distinct keys appends every source
value of a bound key. -/
theorem copyAdd_found (src : Header) (d : Header) (key : String) (vs : List String)
    (hfind : assocFind src key = some vs)
    (hnd : (src.map Prod.fst).Nodup) :
    getValues (copyAdd d src) key = getValues d key ++ vs := by
  induction src generalizing d with
  | nil => simp [assocFind] at hfind
  | cons p t ih =>
    obtain ⟨k', vls⟩ := p
    simp only [List.map_cons, List.nodup_cons] at hnd
    by_cases hk : k' = key
    · subst hk
      simp [assocFind] at hfind
      subst hfind
      have habs : ∀ p ∈ t, p.1 ≠ k' := by
        intro q hq he
        exact hnd.1 (he ▸ List.mem_map_of_mem Prod.fst hq)
      have hstep : copyAdd d ((k', vls) :: t) =
          copyAdd (vls.foldl (fun d' v => headerAdd d' k' v) d) t := by
        simp [copyAdd]
      rw [hstep, copyAdd_absent t _ k' habs]
      exact addFold_self vls d k'
    · simp only [assocFind, if_neg hk] at hfind
      have hstep : copyAdd d ((k', vls) :: t) =
          copyAdd (vls.foldl (fun d' v => headerAdd d' k' v) d) t := by
        simp [copyAdd]
      rw [hstep, ih (vls.foldl (fun d' v => headerAdd d' k' v) d) hfind hnd.2,
        addFold_other vls d k' key (Ne.symm hk)]

/-- In `RespondFromCache`, `revalidate` is only ever set together with
`responded` (`fetch/responder.go` lines 58–61): the decision triple can
report a stale-while-revalidate serve only as a served response. -/
theorem rfcDecision_rev (t : Int) (cc : String) (resp : Response) (req : Request)
    (found : Bool) :
    (rfcDecision t cc resp req found).2.2 = true →
    (rfcDecision t cc resp req found).1 = true := by
  unfold rfcDecision
  dsimp only
  split
  next h1 =>
    split
    next h2 =>
      cases hap : ageParsed t resp with
      | none => simp
      | some age =>
        cases hfd : findDirective "stale-while-revalidate=" cc with
        | none => simp
        | some so =>
          simp only
          split <;> (split <;> simp)
    next h2 => simp
  next h1 => simp

/-- Whenever `RespondFromCache` reports `revalidate`, it also reports
`responded`. -/
theorem respondFromCache_rev (t : Int) (c : Cacher) (w : Sink) (r : Request) :
    (respondFromCache t c w r).revalidate = true →
    (respondFromCache t c w r).responded = true := by
  unfold respondFromCache
  dsimp only
  split
  · simp
  · cases hl : c.load (c.hashFn r) r with
    | none => simp
    | some resp =>
      simp only
      split
      · simp
      · intro h
        next hd =>
          exact absurd (rfcDecision_rev t _ resp r true h) hd

/-! ## Claim C1 — request fingerprint -/

/-- A GET request for `http://x/` that accepts gzip. -/
def c1reqGzip : Request :=
  { method := "GET", urlScheme := "http", urlHost := "x", urlRest := "/",
    headers := [("Accept-Encoding", ["gzip"])], cookies := [] }

/-- The same request accepting br instead. -/
def c1reqBr : Request := { c1reqGzip with headers := [("Accept-Encoding", ["br"])] }

/-- C1 (counterexample): two requests that differ only in `Accept-Encoding`
(same method, URL, cookies, no Vary memo, no `X-Honey-Vary`) receive the
*same* hash from `defaultCacher.Hash`, refuting the claim that
`Accept-Encoding` is part of the primary key. -/
theorem hash_ignores_accept_encoding :
    dHash {} c1reqGzip = dHash {} c1reqBr
    ∧ headerGet c1reqGzip.headers "Accept-Encoding" ≠
        headerGet c1reqBr.headers "Accept-Encoding"
    ∧ c1reqGzip.cookies = c1reqBr.cookies
    ∧ ({} : CacherState).varyMemo = [] := by
  refine ⟨by decide, by decide, rfl, rfl⟩

/-- C1 (amended): `Hash(R1) = Hash(R2)` whenever R1 and R2 agree on method,
full URL, `X-Honey-Vary`, and the memoised Vary inputs; and conversely the
hash depends on nothing else — absent a Vary memo entry, requests that
agree on method, URL and `X-Honey-Vary` hash identically no matter how
their other headers (`Accept-Encoding` included) or cookies differ. -/
theorem hash_agreement :
    (∀ (c : CacherState) (r1 r2 : Request),
      r1.method = r2.method → urlString r1 = urlString r2 →
      headerGet r1.headers "X-Honey-Vary" = headerGet r2.headers "X-Honey-Vary" →
      (∀ v, assocFindS c.varyMemo (r1.method ++ " :: " ++ urlString r1) = some v →
        getVaryHeadersHash r1.headers (reqCookie r1) c.allowedCookieNames v =
          getVaryHeadersHash r2.headers (reqCookie r2) c.allowedCookieNames v) →
      dHash c r1 = dHash c r2)
    ∧ (∀ (c : CacherState) (r1 r2 : Request),
      assocFindS c.varyMemo (r1.method ++ " :: " ++ urlString r1) = none →
      r1.method = r2.method → urlString r1 = urlString r2 →
      headerGet r1.headers "X-Honey-Vary" = headerGet r2.headers "X-Honey-Vary" →
      dHash c r1 = dHash c r2) := by
  constructor
  · intro c r1 r2 hm hu hx hv
    unfold dHash
    dsimp only
    rw [hm, hu, hx]
    cases hmv : assocFindS c.varyMemo (r2.method ++ " :: " ++ urlString r2) with
    | none => rfl
    | some v =>
      have hmv' : assocFindS c.varyMemo (r1.method ++ " :: " ++ urlString r1) = some v := by
        rw [hm, hu]; exact hmv
      dsimp only
      rw [hv v hmv']
  · intro c r1 r2 hnone hm hu hx
    unfold dHash
    dsimp only
    rw [hm, hu, hx]
    have hnone' : assocFindS c.varyMemo (r2.method ++ " :: " ++ urlString r2) = none := by
      rw [← hm, ← hu]; exact hnone
    rw [hnone']

/-- Cacher state with a memoised `Vary: Accept-Language` for
`GET :: http://x/`. -/
def c1memoState : CacherState :=
  { varyMemo := [("GET :: http://x/", "Accept-Language")] }

/-- Two requests agreeing on the memoised Vary input (`Accept-Language`)
but differing in `User-Agent`. -/
def c1reqUA1 : Request :=
  { method := "GET", urlScheme := "http", urlHost := "x", urlRest := "/",
    headers := [("Accept-Language", ["en"]), ("User-Agent", ["A"])], cookies := [] }

/-- Same, with another `User-Agent`. -/
def c1reqUA2 : Request := { c1reqUA1 with headers := [("Accept-Language", ["en"]), ("User-Agent", ["B"])] }

/-- C1 (witness): both halves of the amended hash-agreement theorem at
concrete inputs. -/
theorem hash_agreement_witness :
    dHash c1memoState c1reqUA1 = dHash c1memoState c1reqUA2
    ∧ dHash {} c1reqUA1 = dHash {} c1reqUA2 := by
  constructor
  · refine hash_agreement.1 c1memoState c1reqUA1 c1reqUA2 rfl rfl rfl ?_
    intro v hv
    have h1 : assocFindS c1memoState.varyMemo
        (c1reqUA1.method ++ " :: " ++ urlString c1reqUA1) = some "Accept-Language" := by
      decide
    rw [h1] at hv
    injection hv with hv'
    subst hv'
    decide
  · exact hash_agreement.2 {} c1reqUA1 c1reqUA2 (by decide) rfl rfl rfl

/-! ## Claim C2 — the `public` token -/

/-- Stand-in digest for the external BLAKE2b-256 library (its value is
irrelevant to the Cache-Control and quoting properties below). -/
def identityDigest : List Nat → List Nat := fun l => l

/-- Origin response with no Cache-Control header, body `test`. -/
def c2respPlain : HttpResponse :=
  { statusCode := 200, headers := [], body := [116, 101, 115, 116] }

/-- Origin response that already carries `public`. -/
def c2respPublic : HttpResponse :=
  { statusCode := 200, headers := [("Cache-Control", ["public, max-age=60"])],
    body := [116, 101, 115, 116] }

/-- C2 (code bug): `Standardize` never leaves a `public` token in
`Cache-Control` — the `ccReplacer` deletes every occurrence of `public`,
including the one just appended.  A response without `Cache-Control` ends
up with `max-age=300` and no `public`; a response that already says
`public, max-age=60` ends up with ` max-age=60` (zero `public` tokens, not
exactly one). -/
theorem standardize_public_stripped :
    headerGet (standardize [] identityDigest 0 c2respPlain).1.headers "Cache-Control"
      = "max-age=300"
    ∧ containsStr
        (headerGet (standardize [] identityDigest 0 c2respPlain).1.headers "Cache-Control")
        "public" = false
    ∧ headerGet (standardize [] identityDigest 0 c2respPublic).1.headers "Cache-Control"
      = " max-age=60"
    ∧ containsStr
        (headerGet (standardize [] identityDigest 0 c2respPublic).1.headers "Cache-Control")
        "public" = false
    ∧ containsStr (headerGet c2respPlain.headers "Cache-Control") "private" = false
    ∧ containsStr (headerGet c2respPublic.headers "Cache-Control") "private" = false := by
  decide

/-! ## Claim C3 — the ETag -/

/-- Origin response with body bytes 1, 2, 3 (base64 `AQID` under the
identity stand-in digest). -/
def c3resp : HttpResponse := { statusCode := 200, headers := [], body := [1, 2, 3] }

/-- C3 (counterexample): the stored and forwarded `Etag` produced by
`Standardize` is the bare base64 of the digest of the body — not enclosed
in double quotes as the claim states. -/
theorem etag_unquoted :
    headerGet (standardize [] identityDigest 0 c3resp).1.headers "Etag" = "AQID"
    ∧ headerGet (standardize [] identityDigest 0 c3resp).2 "Etag" = "AQID"
    ∧ ("AQID" : String) ≠ "\"" ++ base64Encode (identityDigest c3resp.body) ++ "\"" := by
  decide

/-- C3 (amended): unless the standardised `Cache-Control` contains
`no-store`, `Standardize` sets `Etag` on both the stored headers and the
forwarded response headers to the (unquoted) base64 of the BLAKE2b-256
digest of the body; when `no-store` is present no ETag is computed — the
`Etag` values pass through from the (cookie-filtered) origin headers. -/
theorem etag_amended :
    (∀ (names : List String) (digest : List Nat → List Nat) (t : Int) (r : HttpResponse),
      containsStr (stdCC2 (headerGet (stdFilterSetCookie names r.headers) "Cache-Control"))
        "no-store" = false →
      headerGet (standardize names digest t r).1.headers "Etag" = base64Encode (digest r.body)
      ∧ headerGet (standardize names digest t r).2 "Etag" = base64Encode (digest r.body))
    ∧ (∀ (names : List String) (digest : List Nat → List Nat) (t : Int) (r : HttpResponse),
      containsStr (stdCC2 (headerGet (stdFilterSetCookie names r.headers) "Cache-Control"))
        "no-store" = true →
      getValues (standardize names digest t r).1.headers "Etag" =
        getValues (stdFilterSetCookie names r.headers) "Etag"
      ∧ getValues (standardize names digest t r).2 "Etag" =
        getValues (stdFilterSetCookie names r.headers) "Etag") := by
  have h1 : ∀ (h : Header) (s : String),
      getValues (headerSet h "Cache-Control" s) "Etag" = getValues h "Etag" :=
    fun h s => getValues_headerSet_other h _ _ s (by decide)
  have h2 : ∀ (h : Header),
      getValues (headerDel h "Set-Cookie") "Etag" = getValues h "Etag" :=
    fun h => getValues_headerDel_other h _ _ (by decide)
  have h3 : ∀ (h : Header) (s : String),
      getValues (headerSet h "Last-Modified" s) "Etag" = getValues h "Etag" :=
    fun h s => getValues_headerSet_other h _ _ s (by decide)
  have h4 : ∀ (h : Header) (s : String),
      getValues (headerSet h "Expires" s) "Etag" = getValues h "Etag" :=
    fun h s => getValues_headerSet_other h _ _ s (by decide)
  constructor
  · intro names digest t r hns
    unfold standardize
    dsimp only
    rw [hns]
    exact ⟨headerGet_headerSet_self _ _ _, headerGet_headerSet_self _ _ _⟩
  · intro names digest t r hns
    unfold standardize
    dsimp only
    rw [hns]
    refine ⟨?_, ?_⟩ <;> (repeat' split) <;> simp_all [h1, h2, h3, h4]

/-- Origin response whose Cache-Control carries `no-store` and a
pre-existing ETag. -/
def c3respNoStore : HttpResponse :=
  { statusCode := 200,
    headers := [("Cache-Control", ["no-store"]), ("Etag", ["orig"])], body := [1, 2, 3] }

/-- C3 (witness): the amended ETag theorem applied at concrete inputs, for
both the computed-ETag case and the `no-store` case. -/
theorem etag_amended_witness :
    (headerGet (standardize [] identityDigest 0 c3resp).1.headers "Etag"
        = base64Encode (identityDigest c3resp.body)
      ∧ headerGet (standardize [] identityDigest 0 c3resp).2 "Etag"
        = base64Encode (identityDigest c3resp.body))
    ∧ (getValues (standardize [] identityDigest 0 c3respNoStore).1.headers "Etag"
        = getValues (stdFilterSetCookie [] c3respNoStore.headers) "Etag"
      ∧ getValues (standardize [] identityDigest 0 c3respNoStore).2 "Etag"
        = getValues (stdFilterSetCookie [] c3respNoStore.headers) "Etag") :=
  ⟨etag_amended.1 [] identityDigest 0 c3resp (by decide),
   etag_amended.2 [] identityDigest 0 c3respNoStore (by decide)⟩

/-! ## Claim C4 — If-Modified-Since at the equality boundary -/

/-- Cached response last modified at the RFC 1123 instant 784111777. -/
def c4resp : Response :=
  { statusCode := 200, headers := [("Last-Modified", ["Sun, 06 Nov 1994 08:49:37 GMT"])],
    body := [], requestHeaders := [], cookies := [], birth := 0 }

/-- Request whose `If-Modified-Since` equals the response's
`Last-Modified` exactly. -/
def c4req : Request :=
  { method := "GET", urlScheme := "http", urlHost := "x", urlRest := "/",
    headers := [("If-Modified-Since", ["Sun, 06 Nov 1994 08:49:37 GMT"])], cookies := [] }

/-- C4 (code bug evaluation): with `Last-Modified` equal to
`If-Modified-Since` (both parse to the same instant), `Validate` returns
`(false, 304)` — the boolean is false because the code compares with
`modified.Before(since)` (strict), where the claim, the code's own comment
and RFC 7232 require "not modified after", i.e. true on equality. -/
theorem validate_ims_equal_instant :
    validate 0 c4resp c4req = (false, 304)
    ∧ parseRFC1123 (headerGet c4resp.headers "Last-Modified") =
        parseRFC1123 (headerGet c4req.headers "If-Modified-Since")
    ∧ parseRFC1123 (headerGet c4resp.headers "Last-Modified") = some 784111777 := by
  decide

/-! ## Claim C5 — s-maxage overrides max-age -/

/-- C5: for every request whose `Cache-Control` asks for revalidation and
every cached response whose `Cache-Control` contains both `s-maxage=N` and
`max-age=M` (both parseable), `Validate` uses N — returning
`(age < N, 304)` with age the whole seconds since standardisation —
regardless of M. -/
theorem validate_smaxage_overrides :
    ∀ (t : Int) (resp : Response) (req : Request) (N M : Nat),
    (containsStr (headerGet req.headers "Cache-Control") "must-revalidate" = true ∨
      containsStr (headerGet req.headers "Cache-Control") "proxy-revalidate" = true) →
    containsStr (headerGet resp.headers "Cache-Control") "s-maxage" = true →
    findDirective "s-maxage=" (headerGet resp.headers "Cache-Control") = some N →
    findDirective "max-age=" (headerGet resp.headers "Cache-Control") = some M →
    validate t resp req = (decide (t - resp.birth < (N : Int)), 304) := by
  intro t resp req N M hrev hs hfindS _hfindM
  have hcond : (containsStr (headerGet req.headers "Cache-Control") "must-revalidate" ||
      containsStr (headerGet req.headers "Cache-Control") "proxy-revalidate") = true := by
    rcases hrev with h | h <;> simp [h]
  unfold validate
  dsimp only
  rw [hcond, hs, hfindS]
  simp

/-- Cached response carrying both directives. -/
def c5resp : Response :=
  { statusCode := 200, headers := [("Cache-Control", ["s-maxage=30,max-age=60"])],
    body := [], requestHeaders := [], cookies := [], birth := 0 }

/-- Revalidating request. -/
def c5req : Request :=
  { method := "GET", urlScheme := "http", urlHost := "x", urlRest := "/",
    headers := [("Cache-Control", ["must-revalidate"])], cookies := [] }

/-- C5 (witness): at age 10 with `s-maxage=30, max-age=60` the response
validates (10 < 30), through the theorem. -/
theorem validate_smaxage_overrides_witness :
    validate 10 c5resp c5req = (true, 304) := by
  have h := validate_smaxage_overrides 10 c5resp c5req 30 60
    (Or.inl (by decide)) (by decide) (by decide) (by decide)
  rw [h]
  decide

/-! ## Claim C6 — stale-while-revalidate -/

/-- Cached response announcing `max-age=60, stale-while-revalidate=30`,
standardised at t = 0, body `hi`. -/
def c6resp : Response :=
  { statusCode := 200, headers := [("Cache-Control", ["max-age=60, stale-while-revalidate=30"])],
    body := [104, 105], requestHeaders := [], cookies := [], birth := 0 }

/-- A cacher whose store holds `c6resp` under every hash. -/
def c6cacher : Cacher :=
  { canCache := fun _ => true, hashFn := fun _ => "h", load := fun _ _ => some c6resp }

/-- Revalidating request carrying no stale-while-revalidate of its own. -/
def c6req : Request :=
  { method := "GET", urlScheme := "http", urlHost := "x", urlRest := "/",
    headers := [("Cache-Control", ["must-revalidate"])], cookies := [] }

/-- C6 (counterexample): at age 80 s, the S5 scenario — cached response
carrying `max-age=60, stale-while-revalidate=30`, invalid per `Validate` —
is *not* served stale: `RespondFromCache` reads the directives from the
request's `Cache-Control` (here `must-revalidate` only), so `responded`
is false and the sink is untouched (no `X-Honey-Cache: HIT`). -/
theorem swr_reads_request_directives :
    (respondFromCache 80 c6cacher emptySink c6req).responded = false
    ∧ (respondFromCache 80 c6cacher emptySink c6req).sink = emptySink
    ∧ containsStr (headerGet c6resp.headers "Cache-Control") "stale-while-revalidate" = true
    ∧ findDirective "stale-while-revalidate=" (headerGet c6resp.headers "Cache-Control") = some 30
    ∧ findDirective "max-age=" (headerGet c6resp.headers "Cache-Control") = some 60
    ∧ (validate 80 c6resp c6req).1 = false := by
  decide

/-- C6 (amended): when a found cached response fails validation and the
*request's* `Cache-Control` carries `stale-while-revalidate=S` with
`age < max-age + S` (max-age also read from the request, 0 when absent),
the client is served the stale cached body immediately with
`X-Honey-Cache: HIT`; but no background refresh happens — `responded` is
reported together with `revalidate`, so `Fetch` returns at once without
invoking the handler or joining a singleflight (the detached-recorder
branch is unreachable). -/
theorem swr_amended :
    (∀ (t : Int) (c : Cacher) (w : Sink) (r : Request) (resp : Response) (S sc : Nat),
      containsStr (headerGet r.headers "Cache-Control") "no-cache" = false →
      (headerGet r.headers "Pragma" == "no-cache") = false →
      c.load (c.hashFn r) r = some resp →
      (containsStr (headerGet r.headers "Cache-Control") "must-revalidate" ||
        containsStr (headerGet r.headers "Cache-Control") "proxy-revalidate" ||
        containsStr (headerGet r.headers "Cache-Control") "max-age") = true →
      validate t resp r = (false, sc) →
      containsStr (headerGet r.headers "Cache-Control") "stale-while-revalidate" = true →
      findDirective "stale-while-revalidate=" (headerGet r.headers "Cache-Control") = some S →
      resp.birth ≤ t →
      (t - resp.birth).toNat <
        (if (getMaxAge (headerGet r.headers "Cache-Control")).2 then
          (getMaxAge (headerGet r.headers "Cache-Control")).1 else 0) + S →
      headerGet r.headers "If-None-Match" = "" →
      (respondFromCache t c w r).responded = true
      ∧ (respondFromCache t c w r).revalidate = true
      ∧ headerGet (respondFromCache t c w r).sink.headers "X-Honey-Cache" = "HIT"
      ∧ (respondFromCache t c w r).sink.status = some resp.statusCode
      ∧ (respondFromCache t c w r).sink.body = w.body ++ resp.body)
    ∧ (∀ (t : Int) (c : Cacher) (handler : Sink → Request → Sink)
        (inflight : String → Bool) (b : Backend) (w : Sink) (r : Request),
      c.canCache (switchBackend b r) = true →
      (respondFromCache t c w (switchBackend b r)).responded = true →
      fetch t c handler inflight b w r =
        ⟨(respondFromCache t c w (switchBackend b r)).sink, false, false⟩) := by
  constructor
  · intro t c w r resp S sc h1 h2 hload hint hval hsw hfind hbt hage hinm
    have hguard : (containsStr (headerGet r.headers "Cache-Control") "no-cache" ||
        (headerGet r.headers "Pragma" == "no-cache")) = false := by
      simp [h1, h2]
    have hd : rfcDecision t (headerGet r.headers "Cache-Control") resp r true
        = (true, sc, true) := by
      unfold rfcDecision
      rw [hint]
      dsimp only
      rw [hval]
      dsimp only
      rw [hsw]
      have hap : ageParsed t resp = some (t - resp.birth).toNat := by
        simp [ageParsed, hbt]
      rw [hap]
      dsimp only
      rw [hfind]
      dsimp only
      rw [if_pos hage]
      simp
    have hnm : isNotModified r resp = false := by
      simp [isNotModified, hinm]
    have hres : respondFromCache t c w r =
        ⟨c.hashFn r, true, true,
          writeBody (writeHeaderS
            { w with headers := headerSet (copySet w.headers resp.headers) "X-Honey-Cache" "HIT" }
            resp.statusCode) resp.body⟩ := by
      unfold respondFromCache
      dsimp only
      rw [hguard]
      simp only [Bool.false_eq_true, if_false]
      rw [hload]
      simp only [hd, hnm]
      rfl
    rw [hres]
    refine ⟨rfl, rfl, ?_, rfl, rfl⟩
    exact headerGet_headerSet_self _ _ _
  · intro t c handler inflight b w r hcan hresp
    unfold fetch
    dsimp only
    rw [hcan, hresp]
    rfl

/-- Request carrying the stale-while-revalidate directives itself. -/
def c6reqB : Request :=
  { method := "GET", urlScheme := "http", urlHost := "x", urlRest := "/",
    headers := [("Cache-Control", ["must-revalidate, max-age=60, stale-while-revalidate=30"])],
    cookies := [] }

/-- C6 (witness): the amended theorem applied at a concrete stale serve
(age 80, request-side `max-age=60, stale-while-revalidate=30`), plus the
no-refresh half at the same inputs. -/
theorem swr_amended_witness :
    ((respondFromCache 80 c6cacher emptySink c6reqB).responded = true
      ∧ (respondFromCache 80 c6cacher emptySink c6reqB).revalidate = true
      ∧ headerGet (respondFromCache 80 c6cacher emptySink c6reqB).sink.headers "X-Honey-Cache"
          = "HIT"
      ∧ (respondFromCache 80 c6cacher emptySink c6reqB).sink.status = some c6resp.statusCode
      ∧ (respondFromCache 80 c6cacher emptySink c6reqB).sink.body
          = emptySink.body ++ c6resp.body)
    ∧ fetch 80 c6cacher (fun s _ => s) (fun _ => false) ⟨"http", "b"⟩ emptySink c6reqB
        = ⟨(respondFromCache 80 c6cacher emptySink (switchBackend ⟨"http", "b"⟩ c6reqB)).sink,
            false, false⟩ :=
  ⟨swr_amended.1 80 c6cacher emptySink c6reqB c6resp 30 304 (by decide) (by decide)
      (by decide) (by decide) (by decide) (by decide) (by decide) (by decide) (by decide)
      (by decide),
   swr_amended.2 80 c6cacher (fun s _ => s) (fun _ => false) ⟨"http", "b"⟩ emptySink c6reqB
      (by decide) (by decide)⟩

/-! ## Claim C7 — uncacheable responses in `singleflight.Write` -/

/-- C7: `Write(response)` returns false exactly when the response's
`Cache-Control` contains `private` or `no-store` or its `Vary` is `*`;
in that case the group is marked uncacheable and every waiter's completion
counter is decremented with nothing written to any sink (so it returns
true in every other case). -/
theorem sf_write_uncacheable :
    ∀ (t : Int) (names : List String) (handler : Sink → Request → Sink)
      (resp : Response) (waiters : List (Sink × Request)),
    ((sfWrite t names handler resp waiters).ok = false ↔
      (containsStr (headerGet resp.headers "Cache-Control") "private" ||
        containsStr (headerGet resp.headers "Cache-Control") "no-store" ||
        (headerGet resp.headers "Vary" == "*")) = true)
    ∧ ((containsStr (headerGet resp.headers "Cache-Control") "private" ||
        containsStr (headerGet resp.headers "Cache-Control") "no-store" ||
        (headerGet resp.headers "Vary" == "*")) = true →
      (sfWrite t names handler resp waiters).sinks = waiters.map Prod.fst
      ∧ (sfWrite t names handler resp waiters).done = waiters.length
      ∧ (sfWrite t names handler resp waiters).cacheable = false) := by
  intro t names handler resp waiters
  unfold sfWrite
  dsimp only
  by_cases h : (containsStr (headerGet resp.headers "Cache-Control") "private" ||
      containsStr (headerGet resp.headers "Cache-Control") "no-store" ||
      (headerGet resp.headers "Vary" == "*")) = true
  · simp [h]
  · simp [h]

/-- A waiter request with no distinguishing headers. -/
def plainGet : Request :=
  { method := "GET", urlScheme := "http", urlHost := "x", urlRest := "/",
    headers := [], cookies := [] }

/-- A private response. -/
def c7resp : Response :=
  { statusCode := 200, headers := [("Cache-Control", ["private"])],
    body := [1], requestHeaders := [], cookies := [], birth := 0 }

/-- C7 (witness): the uncacheable branch at a concrete private response
with one waiter. -/
theorem sf_write_uncacheable_witness :
    (sfWrite 0 [] (fun s _ => s) c7resp [(emptySink, plainGet)]).ok = false
    ∧ (sfWrite 0 [] (fun s _ => s) c7resp [(emptySink, plainGet)]).sinks = [emptySink]
    ∧ (sfWrite 0 [] (fun s _ => s) c7resp [(emptySink, plainGet)]).done = 1
    ∧ (sfWrite 0 [] (fun s _ => s) c7resp [(emptySink, plainGet)]).cacheable = false := by
  have h := sf_write_uncacheable 0 [] (fun s _ => s) c7resp [(emptySink, plainGet)]
  have hc := h.2 (by decide)
  exact ⟨h.1.mpr (by decide), hc.1, hc.2.1, hc.2.2⟩

/-! ## Claim C8 — store admission in the response-modifier hook -/

/-- C8: the response-modifier hook admits a standardised response to the
store iff its `Cache-Control` lacks `no-store` and its status is below
500; a rejected response leaves the store untouched (hence `Load` finds
nothing that was not already there — nothing at all on an empty store),
and an admitted response is retrievable at its Vary-extended key. -/
theorem admission_no_store :
    ∀ (st : CacherState) (hash : String) (resp : Response),
    ((containsStr (headerGet resp.headers "Cache-Control") "no-store" = true ∨
        500 ≤ resp.statusCode) →
      flushAdmit st hash resp = st
      ∧ (∀ (k : String) (rq : Request), dLoad (flushAdmit st hash resp) k rq = dLoad st k rq)
      ∧ (st.entries = [] → ∀ (k : String) (rq : Request),
          dLoad (flushAdmit st hash resp) k rq = none))
    ∧ ((containsStr (headerGet resp.headers "Cache-Control") "no-store" = false ∧
        resp.statusCode < 500) →
      ∀ (rq : Request),
        dLoad (flushAdmit st hash resp)
          (hash ++ getVaryHeadersHash resp.requestHeaders (respCookie resp)
            st.allowedCookieNames (headerGet resp.headers "Vary")) rq = some resp) := by
  intro st hash resp
  constructor
  · intro hrej
    have hcond : (!containsStr (headerGet resp.headers "Cache-Control") "no-store" &&
        decide (resp.statusCode < 500)) = false := by
      rcases hrej with h | h
      · simp [h]
      · simp [decide_eq_false (by omega : ¬ resp.statusCode < 500)]
    have hid : flushAdmit st hash resp = st := by
      unfold flushAdmit
      dsimp only
      rw [hcond]
      rfl
    refine ⟨hid, fun k rq => by rw [hid], fun hemp k rq => ?_⟩
    rw [hid]
    unfold dLoad
    rw [hemp]
    rfl
  · intro hadm rq
    have hcond : (!containsStr (headerGet resp.headers "Cache-Control") "no-store" &&
        decide (resp.statusCode < 500)) = true := by
      simp [hadm.1, hadm.2]
    unfold flushAdmit
    dsimp only
    rw [hcond]
    unfold dCache dLoad
    dsimp only
    exact assocSetR_find_self _ _ _

/-- A cacheable standardised response (no `no-store`, status 200). -/
def c8respOk : Response :=
  { statusCode := 200, headers := [("Cache-Control", ["max-age=300"])],
    body := [1], requestHeaders := [], cookies := [], birth := 0 }

/-- A `no-store` response. -/
def c8respNoStore : Response :=
  { statusCode := 200, headers := [("Cache-Control", ["no-store,max-age=300"])],
    body := [1], requestHeaders := [], cookies := [], birth := 0 }

/-- C8 (witness): on an empty store, a `no-store` response is not
retrievable by any `Load`, and an admitted response is retrievable. -/
theorem admission_no_store_witness :
    dLoad (flushAdmit {} "h" c8respNoStore) "h" plainGet = none
    ∧ dLoad (flushAdmit {} "h" c8respOk)
        ("h" ++ getVaryHeadersHash c8respOk.requestHeaders (respCookie c8respOk)
          ({} : CacherState).allowedCookieNames (headerGet c8respOk.headers "Vary"))
        plainGet = some c8respOk :=
  ⟨((admission_no_store {} "h" c8respNoStore).1 (Or.inl (by decide))).2.2 rfl "h" plainGet,
   (admission_no_store {} "h" c8respOk).2 ⟨by decide, by decide⟩ plainGet⟩

/-! ## Claim C9 — only-if-cached misses -/

/-- C9: a cacheable request that cannot be answered from the cache and
whose `Cache-Control` contains `only-if-cached` receives status 504 and
the handler (Forwarder) is never invoked, nor is any singleflight joined. -/
theorem only_if_cached_504 :
    ∀ (t : Int) (c : Cacher) (handler : Sink → Request → Sink)
      (inflight : String → Bool) (b : Backend) (w : Sink) (r : Request),
    c.canCache (switchBackend b r) = true →
    (respondFromCache t c w (switchBackend b r)).responded = false →
    containsStr (headerGet (switchBackend b r).headers "Cache-Control") "only-if-cached" = true →
    (fetch t c handler inflight b w r).sink.status = some 504
    ∧ (fetch t c handler inflight b w r).handlerCalled = false
    ∧ (fetch t c handler inflight b w r).joined = false := by
  intro t c handler inflight b w r hcan hresp honly
  have hrev : (respondFromCache t c w (switchBackend b r)).revalidate = false := by
    by_contra hc
    rw [Bool.not_eq_false] at hc
    rw [respondFromCache_rev t c w (switchBackend b r) hc] at hresp
    exact absurd hresp (by decide)
  have hfetch : fetch t c handler inflight b w r =
      ⟨writeHeaderS (respondFromCache t c w (switchBackend b r)).sink 504, false, false⟩ := by
    unfold fetch
    dsimp only
    rw [hcan, hresp, hrev, honly]
    rfl
  rw [hfetch]
  exact ⟨rfl, rfl, rfl⟩

/-- Cacher with an empty store. -/
def c9cacher : Cacher :=
  { canCache := fun _ => true, hashFn := fun _ => "h", load := fun _ _ => none }

/-- Request `Cache-Control: no-cache, only-if-cached` (scenario S6). -/
def c9req : Request :=
  { method := "GET", urlScheme := "http", urlHost := "x", urlRest := "/",
    headers := [("Cache-Control", ["no-cache, only-if-cached"])], cookies := [] }

/-- C9 (witness): scenario S6 — empty cache, `no-cache, only-if-cached` →
504, no handler call, no join. -/
theorem only_if_cached_504_witness :
    (fetch 0 c9cacher (fun s _ => s) (fun _ => false) ⟨"http", "b"⟩ emptySink c9req).sink.status
      = some 504
    ∧ (fetch 0 c9cacher (fun s _ => s) (fun _ => false) ⟨"http", "b"⟩ emptySink c9req).handlerCalled
      = false
    ∧ (fetch 0 c9cacher (fun s _ => s) (fun _ => false) ⟨"http", "b"⟩ emptySink c9req).joined
      = false :=
  only_if_cached_504 0 c9cacher (fun s _ => s) (fun _ => false) ⟨"http", "b"⟩ emptySink c9req
    (by decide) (by decide) (by decide)

/-! ## Claim C10 — header fan-out asymmetry between HIT and broadcast -/

/-- C10: on a cache HIT, `RespondFromCache` copies response headers with
`Set` per value, so a multi-valued header reaches the client with only its
last value; a waiter served by the singleflight broadcast gets every value
(copied with `Add`).  (This asymmetry is not stated in the spec.) -/
theorem header_fanout_asymmetry :
    (∀ (t : Int) (c : Cacher) (w : Sink) (r : Request) (resp : Response)
      (key : String) (vs : List String),
      c.load (c.hashFn r) r = some resp →
      (respondFromCache t c w r).responded = true →
      assocFind resp.headers key = some vs → vs ≠ [] →
      (resp.headers.map Prod.fst).Nodup →
      key ≠ "X-Honey-Cache" →
      getValues (respondFromCache t c w r).sink.headers key = [vs.getLastD ""])
    ∧ (∀ (t : Int) (names : List String) (handler : Sink → Request → Sink)
      (resp : Response) (w0 : Sink) (req : Request) (key : String) (vs : List String),
      (containsStr (headerGet resp.headers "Cache-Control") "private" ||
        containsStr (headerGet resp.headers "Cache-Control") "no-store" ||
        (headerGet resp.headers "Vary" == "*")) = false →
      getVaryHeadersHash req.headers (reqCookie req) names (headerGet resp.headers "Vary") =
        getVaryHeadersHash resp.requestHeaders (respCookie resp) names
          (headerGet resp.headers "Vary") →
      assocFind resp.headers key = some vs →
      (resp.headers.map Prod.fst).Nodup →
      key ≠ "X-Honey-Cache" → key ≠ "Age" →
      getValues ((sfWrite t names handler resp [(w0, req)]).sinks.headD emptySink).headers key
        = getValues w0.headers key ++ vs) := by
  constructor
  · intro t c w r resp key vs hload hresp hfind hne hnd hkey
    unfold respondFromCache at hresp ⊢
    dsimp only at hresp ⊢
    by_cases hg : (containsStr (headerGet r.headers "Cache-Control") "no-cache" ||
        (headerGet r.headers "Pragma" == "no-cache")) = true
    · rw [hg] at hresp
      simp at hresp
    · rw [Bool.not_eq_true] at hg
      rw [hg] at hresp ⊢
      simp only [Bool.false_eq_true, if_false] at hresp ⊢
      rw [hload] at hresp ⊢
      dsimp only at hresp ⊢
      by_cases hd : (rfcDecision t (headerGet r.headers "Cache-Control") resp r true).1 = true
      · rw [if_pos hd] at hresp ⊢
        dsimp only
        by_cases hn : isNotModified r resp = true
        · rw [if_pos hn]
          dsimp only [writeHeaderS]
          rw [getValues_headerSet_other _ _ _ _ hkey,
            copySet_found resp.headers w.headers key vs hfind hne hnd]
        · rw [if_neg hn]
          dsimp only [writeHeaderS, writeBody]
          rw [getValues_headerSet_other _ _ _ _ hkey,
            copySet_found resp.headers w.headers key vs hfind hne hnd]
      · rw [if_neg hd] at hresp
        simp at hresp
  · intro t names handler resp w0 req key vs hcond hgvh hfind hnd hkey hage
    unfold sfWrite
    dsimp only
    rw [hcond]
    simp only [Bool.false_eq_true, if_false, List.map_cons, List.map_nil, List.headD]
    rw [if_pos (by simp [hgvh])]
    unfold dispatchMatch
    dsimp only
    by_cases hn : isNotModified req resp = true
    · rw [if_pos hn]
      dsimp only [writeHeaderS]
      rw [getValues_headerSet_other _ _ _ _ hage,
        getValues_headerSet_other _ _ _ _ hkey,
        copyAdd_found resp.headers w0.headers key vs hfind hnd]
    · rw [if_neg hn]
      dsimp only [writeHeaderS, writeBody]
      rw [getValues_headerSet_other _ _ _ _ hage,
        getValues_headerSet_other _ _ _ _ hkey,
        copyAdd_found resp.headers w0.headers key vs hfind hnd]

/-- Response with a doubly-valued header. -/
def c10resp : Response :=
  { statusCode := 200, headers := [("X-Test", ["a", "b"])],
    body := [9], requestHeaders := [], cookies := [], birth := 0 }

/-- Cacher serving `c10resp`. -/
def c10cacher : Cacher :=
  { canCache := fun _ => true, hashFn := fun _ => "h", load := fun _ _ => some c10resp }

/-- C10 (witness): for the header `X-Test: a, b`, the HIT path delivers
only `b` while a broadcast waiter receives `a` and `b`. -/
theorem header_fanout_asymmetry_witness :
    getValues (respondFromCache 0 c10cacher emptySink plainGet).sink.headers "X-Test" = ["b"]
    ∧ getValues ((sfWrite 0 [] (fun s _ => s) c10resp [(emptySink, plainGet)]).sinks.headD
        emptySink).headers "X-Test" = ["a", "b"] := by
  constructor
  · have h := header_fanout_asymmetry.1 0 c10cacher emptySink plainGet c10resp "X-Test"
      ["a", "b"] (by decide) (by decide) (by decide) (by decide) (by decide) (by decide)
    rw [h]
    rfl
  · have h := header_fanout_asymmetry.2 0 [] (fun s _ => s) c10resp emptySink plainGet
      "X-Test" ["a", "b"] (by decide) (by decide) (by decide) (by decide) (by decide)
      (by decide)
    rw [h]
    rfl

example : parseRFC1123 "Sun, 06 Nov 1994 08:49:37 GMT" = some 784111777 := by decide

example : base64Encode [77, 97, 110] = "TWFu" := by decide

example : base64Encode [77, 97] = "TWE=" := by decide

end Honey
